import Mathlib

/-!
Verification of the atuin-history-tool core against its design document.

The development embeds, as executable Lean definitions, the three subsystems the
claims are about:

* the envelope-encryption engine (src/atuin-client/src/record/encryption.rs,
  `PASETO_V4`): payload base64 encoding, the JSON-serialized implicit
  assertions, key-id tagging of the wrapped content key, and the
  encrypt / decrypt / re_encrypt operations.  The external PASETO/PASERK
  primitives (AEAD token, PIE key wrapping, key ids) are modelled
  symbolically at the interface the design document specifies for them.
* the key-value record service (src/atuin-client/src/kv.rs, `KvStore`) over the
  record-chain store contract.
* the sync reconciliation loops (src/src/command/sync.rs, `sync_download`,
  `sync_upload`); the loops are embedded with explicit fuel and the relay and
  database collaborators as explicit response functions / state.
-/

namespace AtuinSpec

/-! ## Byte sequences -/

/-- Payload bytes (Rust Vec of u8); each entry is a byte value below 256. -/
abbrev Bytes := List Nat

/-- All entries of the byte list are actual byte values. -/
def ValidBytes (bs : Bytes) : Prop := ∀ b ∈ bs, b < 256

instance (bs : Bytes) : Decidable (ValidBytes bs) :=
  inferInstanceAs (Decidable (∀ b ∈ bs, b < 256))

deriving instance DecidableEq for Except

/-! ## Base64, URL-safe alphabet, no padding

Embeds the `base64::engine::general_purpose::URL_SAFE_NO_PAD` engine used by
`PASETO_V4::encrypt` and `PASETO_V4::decrypt` to put the plaintext into the
token payload: the standard base64 encoding with alphabet A-Z a-z 0-9 - _ and
no padding, with the strict decoder that rejects non-zero trailing bits. -/

/-- Character of the URL-safe base64 alphabet for a 6-bit value. -/
def b64Char (n : Nat) : Char :=
  if n < 26 then Char.ofNat (65 + n)
  else if n < 52 then Char.ofNat (97 + (n - 26))
  else if n < 62 then Char.ofNat (48 + (n - 52))
  else if n = 62 then Char.ofNat 45
  else Char.ofNat 95

/-- Inverse lookup of the URL-safe base64 alphabet. -/
def b64Val (c : Char) : Option Nat :=
  if 65 ≤ c.toNat ∧ c.toNat ≤ 90 then some (c.toNat - 65)
  else if 97 ≤ c.toNat ∧ c.toNat ≤ 122 then some (26 + (c.toNat - 97))
  else if 48 ≤ c.toNat ∧ c.toNat ≤ 57 then some (52 + (c.toNat - 48))
  else if c.toNat = 45 then some 62
  else if c.toNat = 95 then some 63
  else none

/-- Base64 (URL-safe, unpadded) encoding of a byte sequence. -/
def b64Encode : Bytes → List Char
  | [] => []
  | [a] => [b64Char (a / 4), b64Char (a % 4 * 16)]
  | [a, b] => [b64Char (a / 4), b64Char (a % 4 * 16 + b / 16), b64Char (b % 16 * 4)]
  | a :: b :: c :: rest =>
      b64Char (a / 4) :: b64Char (a % 4 * 16 + b / 16) ::
        b64Char (b % 16 * 4 + c / 64) :: b64Char (c % 64) :: b64Encode rest

/-- Strict base64 (URL-safe, unpadded) decoding; rejects a dangling single
character and non-zero trailing bits, as the strict engine does. -/
def b64Decode : List Char → Option Bytes
  | [] => some []
  | [_] => none
  | [w, x] => do
      let w1 ← b64Val w
      let x1 ← b64Val x
      if x1 % 16 = 0 then some [w1 * 4 + x1 / 16] else none
  | [w, x, y] => do
      let w1 ← b64Val w
      let x1 ← b64Val x
      let y1 ← b64Val y
      if y1 % 4 = 0 then some [w1 * 4 + x1 / 16, x1 % 16 * 16 + y1 / 4] else none
  | w :: x :: y :: z :: rest => do
      let w1 ← b64Val w
      let x1 ← b64Val x
      let y1 ← b64Val y
      let z1 ← b64Val z
      let r ← b64Decode rest
      some ((w1 * 4 + x1 / 16) :: (x1 % 16 * 16 + y1 / 4) :: (y1 % 4 * 64 + z1) :: r)

theorem b64Val_b64Char_fin : ∀ n : Fin 64, b64Val (b64Char n.val) = some n.val := by decide

theorem b64Val_b64Char {n : Nat} (h : n < 64) : b64Val (b64Char n) = some n :=
  b64Val_b64Char_fin ⟨n, h⟩

theorem b64_round_trip : ∀ bs : Bytes, ValidBytes bs → b64Decode (b64Encode bs) = some bs := by
  intro bs
  induction bs using b64Encode.induct with
  | case1 =>
    intro _
    rfl
  | case2 a =>
    intro hv
    have ha : a < 256 := hv a (by simp)
    simp only [b64Encode, b64Decode, b64Val_b64Char (by omega : a / 4 < 64),
      b64Val_b64Char (by omega : a % 4 * 16 < 64), Option.bind_some, Option.pure_def,
      Option.bind_eq_bind, Option.some_bind]
    rw [if_pos (by omega)]
    simp only [Option.some.injEq, List.cons.injEq, and_true]
    omega
  | case3 a b =>
    intro hv
    have ha : a < 256 := hv a (by simp)
    have hb : b < 256 := hv b (by simp)
    simp only [b64Encode, b64Decode, b64Val_b64Char (by omega : a / 4 < 64),
      b64Val_b64Char (by omega : a % 4 * 16 + b / 16 < 64),
      b64Val_b64Char (by omega : b % 16 * 4 < 64), Option.bind_some, Option.pure_def,
      Option.bind_eq_bind, Option.some_bind]
    rw [if_pos (by omega)]
    simp only [Option.some.injEq, List.cons.injEq, and_true]
    exact ⟨by omega, by omega⟩
  | case4 a b c rest ih =>
    intro hv
    have ha : a < 256 := hv a (by simp)
    have hb : b < 256 := hv b (by simp)
    have hc : c < 256 := hv c (by simp)
    have hrest : ValidBytes rest := by
      intro x hx
      exact hv x (by simp [hx])
    simp only [b64Encode, b64Decode, b64Val_b64Char (by omega : a / 4 < 64),
      b64Val_b64Char (by omega : a % 4 * 16 + b / 16 < 64),
      b64Val_b64Char (by omega : b % 16 * 4 + c / 64 < 64),
      b64Val_b64Char (by omega : c % 64 < 64), ih hrest, Option.bind_some, Option.pure_def,
      Option.bind_eq_bind, Option.some_bind]
    simp only [Option.some.injEq, List.cons.injEq, and_true]
    exact ⟨by omega, by omega, by omega⟩

/-! ## JSON string serialization of the implicit assertions

`Assertions::encode` serializes the `Assertions` struct with `serde_json`:
the object `\x7b"id":"...","version":"...","tag":"...","host":"..."\x7d` with
fields in declaration order and the standard serde_json string escaping
(backslash escapes for quote and backslash, short escapes for the control
characters 0x08 0x09 0x0A 0x0C 0x0D, and a lowercase hexadecimal u-escape for
the remaining control characters). -/

/-- Lowercase hexadecimal digit character for a value below 16. -/
def hexDigit (n : Nat) : Char :=
  if n < 10 then Char.ofNat (48 + n) else Char.ofNat (87 + n)

/-- Value of a lowercase hexadecimal digit character. -/
def hexVal (c : Char) : Option Nat :=
  if 48 ≤ c.toNat ∧ c.toNat ≤ 57 then some (c.toNat - 48)
  else if 97 ≤ c.toNat ∧ c.toNat ≤ 102 then some (c.toNat - 87)
  else none

/-- serde_json escaping of one character inside a JSON string literal. -/
def escapeChar (c : Char) : List Char :=
  if c = Char.ofNat 34 then [Char.ofNat 92, Char.ofNat 34]
  else if c = Char.ofNat 92 then [Char.ofNat 92, Char.ofNat 92]
  else if c = Char.ofNat 8 then [Char.ofNat 92, Char.ofNat 98]
  else if c = Char.ofNat 9 then [Char.ofNat 92, Char.ofNat 116]
  else if c = Char.ofNat 10 then [Char.ofNat 92, Char.ofNat 110]
  else if c = Char.ofNat 12 then [Char.ofNat 92, Char.ofNat 102]
  else if c = Char.ofNat 13 then [Char.ofNat 92, Char.ofNat 114]
  else if c.toNat < 32 then
    [Char.ofNat 92, Char.ofNat 117, Char.ofNat 48, Char.ofNat 48,
      hexDigit (c.toNat / 16), hexDigit (c.toNat % 16)]
  else [c]

/-- serde_json escaping of a string's characters. -/
def escapeString : List Char → List Char
  | [] => []
  | c :: rest => escapeChar c ++ escapeString rest

/-- Reads one JSON string body up to its closing quote, undoing the escaping;
returns the decoded characters and the input that follows the closing quote. -/
def unescapeField : List Char → Option (List Char × List Char)
  | [] => none
  | c :: rest =>
    if c = Char.ofNat 34 then some ([], rest)
    else if c = Char.ofNat 92 then
      match rest with
      | [] => none
      | e :: rest2 =>
        if e = Char.ofNat 34 then
          (unescapeField rest2).map fun p => (Char.ofNat 34 :: p.1, p.2)
        else if e = Char.ofNat 92 then
          (unescapeField rest2).map fun p => (Char.ofNat 92 :: p.1, p.2)
        else if e = Char.ofNat 98 then
          (unescapeField rest2).map fun p => (Char.ofNat 8 :: p.1, p.2)
        else if e = Char.ofNat 116 then
          (unescapeField rest2).map fun p => (Char.ofNat 9 :: p.1, p.2)
        else if e = Char.ofNat 110 then
          (unescapeField rest2).map fun p => (Char.ofNat 10 :: p.1, p.2)
        else if e = Char.ofNat 102 then
          (unescapeField rest2).map fun p => (Char.ofNat 12 :: p.1, p.2)
        else if e = Char.ofNat 114 then
          (unescapeField rest2).map fun p => (Char.ofNat 13 :: p.1, p.2)
        else if e = Char.ofNat 117 then
          match rest2 with
          | d1 :: d2 :: d3 :: d4 :: rest3 =>
            if d1 = Char.ofNat 48 ∧ d2 = Char.ofNat 48 then
              match hexVal d3, hexVal d4 with
              | some h1, some h2 =>
                (unescapeField rest3).map fun p => (Char.ofNat (h1 * 16 + h2) :: p.1, p.2)
              | _, _ => none
            else none
          | _ => none
        else none
    else (unescapeField rest).map fun p => (c :: p.1, p.2)

theorem hexVal_hexDigit_fin : ∀ n : Fin 16, hexVal (hexDigit n.val) = some n.val := by decide

theorem hexVal_hexDigit {n : Nat} (h : n < 16) : hexVal (hexDigit n) = some n :=
  hexVal_hexDigit_fin ⟨n, h⟩

theorem unescape_escapeChar (c : Char) (l : List Char) :
    unescapeField (escapeChar c ++ l) = (unescapeField l).map fun p => (c :: p.1, p.2) := by
  by_cases h1 : c = Char.ofNat 34
  · subst h1
    rw [show escapeChar (Char.ofNat 34) = [Char.ofNat 92, Char.ofNat 34] by decide]
    simp only [List.cons_append, List.nil_append]
    rw [unescapeField.eq_def]
    simp
  · by_cases h2 : c = Char.ofNat 92
    · subst h2
      rw [show escapeChar (Char.ofNat 92) = [Char.ofNat 92, Char.ofNat 92] by decide]
      simp only [List.cons_append, List.nil_append]
      rw [unescapeField.eq_def]
      simp
    · by_cases h3 : c = Char.ofNat 8
      · subst h3
        rw [show escapeChar (Char.ofNat 8) = [Char.ofNat 92, Char.ofNat 98] by decide]
        simp only [List.cons_append, List.nil_append]
        rw [unescapeField.eq_def]
        simp
      · by_cases h4 : c = Char.ofNat 9
        · subst h4
          rw [show escapeChar (Char.ofNat 9) = [Char.ofNat 92, Char.ofNat 116] by decide]
          simp only [List.cons_append, List.nil_append]
          rw [unescapeField.eq_def]
          simp
        · by_cases h5 : c = Char.ofNat 10
          · subst h5
            rw [show escapeChar (Char.ofNat 10) = [Char.ofNat 92, Char.ofNat 110] by decide]
            simp only [List.cons_append, List.nil_append]
            rw [unescapeField.eq_def]
            simp
          · by_cases h6 : c = Char.ofNat 12
            · subst h6
              rw [show escapeChar (Char.ofNat 12) = [Char.ofNat 92, Char.ofNat 102] by decide]
              simp only [List.cons_append, List.nil_append]
              rw [unescapeField.eq_def]
              simp
            · by_cases h7 : c = Char.ofNat 13
              · subst h7
                rw [show escapeChar (Char.ofNat 13) = [Char.ofNat 92, Char.ofNat 114]
                  by decide]
                simp only [List.cons_append, List.nil_append]
                rw [unescapeField.eq_def]
                simp
              · by_cases h8 : c.toNat < 32
                · have hd1 : hexVal (hexDigit (c.toNat / 16)) = some (c.toNat / 16) :=
                    hexVal_hexDigit (by omega)
                  have hd2 : hexVal (hexDigit (c.toNat % 16)) = some (c.toNat % 16) :=
                    hexVal_hexDigit (by omega)
                  have hc : Char.ofNat (c.toNat / 16 * 16 + c.toNat % 16) = c := by
                    have h : c.toNat / 16 * 16 + c.toNat % 16 = c.toNat := by omega
                    rw [h, Char.ofNat_toNat]
                  simp only [escapeChar, if_neg h1, if_neg h2, if_neg h3, if_neg h4, if_neg h5,
                    if_neg h6, if_neg h7, if_pos h8, List.cons_append, List.nil_append]
                  rw [unescapeField.eq_def]
                  simp [hd1, hd2, hc]
                · simp only [escapeChar, if_neg h1, if_neg h2, if_neg h3, if_neg h4, if_neg h5,
                    if_neg h6, if_neg h7, if_neg h8, List.cons_append, List.nil_append]
                  rw [unescapeField.eq_def]
                  simp [h1, h2]

theorem unescape_escape (s : List Char) (rest : List Char) :
    unescapeField (escapeString s ++ Char.ofNat 34 :: rest) = some (s, rest) := by
  induction s with
  | nil =>
    rw [escapeString, List.nil_append, unescapeField.eq_def]
    simp
  | cons c s ih =>
    rw [escapeString, List.append_assoc, unescape_escapeChar, ih]
    rfl

/-! ## Additional data and its implicit-assertion encoding

`AdditonalData` (spelled as in the source) carries the record identity
quadruple.  `Assertions::from` copies its four fields and
`Assertions::encode` serializes them with serde_json in declaration order:
the characters below spell `\x7b"id":"I","version":"V","tag":"T","host":"H"\x7d`
with each field value escaped by `escapeString`. -/

structure AdditonalData where
  id : String
  version : String
  tag : String
  host : String
deriving DecidableEq

/-- The serialized implicit assertion: serde_json output for the
`Assertions` struct built from the additional data. -/
def assertionEnc (ad : AdditonalData) : List Char :=
  [Char.ofNat 123, Char.ofNat 34, Char.ofNat 105, Char.ofNat 100, Char.ofNat 34,
    Char.ofNat 58, Char.ofNat 34] ++ escapeString ad.id.data ++
  [Char.ofNat 34, Char.ofNat 44, Char.ofNat 34, Char.ofNat 118, Char.ofNat 101,
    Char.ofNat 114, Char.ofNat 115, Char.ofNat 105, Char.ofNat 111, Char.ofNat 110,
    Char.ofNat 34, Char.ofNat 58, Char.ofNat 34] ++ escapeString ad.version.data ++
  [Char.ofNat 34, Char.ofNat 44, Char.ofNat 34, Char.ofNat 116, Char.ofNat 97,
    Char.ofNat 103, Char.ofNat 34, Char.ofNat 58, Char.ofNat 34] ++
  escapeString ad.tag.data ++
  [Char.ofNat 34, Char.ofNat 44, Char.ofNat 34, Char.ofNat 104, Char.ofNat 111,
    Char.ofNat 115, Char.ofNat 116, Char.ofNat 34, Char.ofNat 58, Char.ofNat 34] ++
  escapeString ad.host.data ++ [Char.ofNat 34, Char.ofNat 125]

theorem assertionEnc_inj {ad1 ad2 : AdditonalData} (h : assertionEnc ad1 = assertionEnc ad2) :
    ad1 = ad2 := by
  unfold assertionEnc at h
  simp only [List.append_assoc, List.cons_append, List.nil_append, List.cons.injEq,
    true_and] at h
  have h2 := congrArg unescapeField h
  rw [unescape_escape, unescape_escape] at h2
  simp only [Option.some.injEq, Prod.mk.injEq] at h2
  obtain ⟨hid, h⟩ := h2
  simp only [List.cons.injEq, true_and] at h
  have h2 := congrArg unescapeField h
  rw [unescape_escape, unescape_escape] at h2
  simp only [Option.some.injEq, Prod.mk.injEq] at h2
  obtain ⟨hver, h⟩ := h2
  simp only [List.cons.injEq, true_and] at h
  have h2 := congrArg unescapeField h
  rw [unescape_escape, unescape_escape] at h2
  simp only [Option.some.injEq, Prod.mk.injEq] at h2
  obtain ⟨htag, h⟩ := h2
  simp only [List.cons.injEq, true_and] at h
  have h2 := congrArg unescapeField h
  rw [unescape_escape, unescape_escape] at h2
  simp only [Option.some.injEq, Prod.mk.injEq] at h2
  obtain ⟨hhost, -⟩ := h2
  obtain ⟨i1, v1, t1, o1⟩ := ad1
  obtain ⟨i2, v2, t2, o2⟩ := ad2
  simp only [AdditonalData.mk.injEq]
  exact ⟨String.ext hid, String.ext hver, String.ext htag, String.ext hhost⟩

/-! ## Envelope encryption engine (`PASETO_V4`)

The operations below are translated from `impl Encryption for PASETO_V4` and
`impl PASETO_V4` in src/atuin-client/src/record/encryption.rs.  The external
cryptographic primitives come from the rusty_paseto / rusty_paserk crates and
are modelled symbolically, at the interface the design document gives for
them (an authenticated cipher bound to an implicit assertion, and a
deterministic key-wrapping scheme with a key identifier derived from the
wrapping key):

* a PASETO V4 local token is a sealed box holding the payload, the implicit
  assertion and the key and nonce used; `try_decrypt` succeeds exactly when
  key and assertion match the ones used at encryption time;
* a PASERK PIE wrapped key is a sealed box holding the content key and the
  wrapping key; `unwrap_local` succeeds exactly when the wrapping key
  matches;
* `encode_id` (the PASERK key id, a digest of the key) is modelled as an
  injective tag of the key.

The random content key and the two random nonces drawn inside `encrypt` and
`encrypt_cek` are passed as explicit arguments.  Since the footer is parsed
back from JSON with serde_json before use, and that round-trip is exact, the
footer is carried as a structure rather than as its JSON text. -/

/-- A 32-byte symmetric key (Rust `[u8; 32]` / `Key<32>`). -/
abbrev Key32 := List Nat

/-- Modelled from the spec: the PASERK key id, an identifier derived from the
wrapping key by a collision-free digest; modelled as an injective tag. -/
structure KeyId where
  ofKey : Key32
deriving DecidableEq

/-- `PasetoSymmetricKey::encode_id`. -/
def encode_id (k : Key32) : KeyId := KeyId.mk k

/-- Modelled from the spec: a PASETO V4 local token, symbolically - the
payload sealed under a key and nonce with an authenticated implicit
assertion. -/
structure Token where
  nonce : Key32
  payload : List Char
  assertion : List Char
  key : Key32
deriving DecidableEq

/-- Modelled from the spec: a PASERK PIE wrapped key, symbolically - the
content key sealed under the wrapping key. -/
structure WrappedKey where
  cek : Key32
  kek : Key32
  nonce : Key32
deriving DecidableEq

/-- Error kinds a decrypt path can surface.  Each constructor mirrors one
distinct error content of the source: `kidMismatch` carries the two key ids
interpolated into the `ensure!` message of `decrypt_cek`, the others mirror
the remaining distinct failure messages. -/
inductive CryptoError where
  | footerParse : CryptoError
  | kidMismatch : KeyId → KeyId → CryptoError
  | unwrapFailure : CryptoError
  | authenticationFailure : CryptoError
  | base64Failure : CryptoError
deriving DecidableEq

/-- `Paseto::<V4, Local>::builder()...try_encrypt`. -/
def pasetoEncrypt (payload : List Char) (assertion : List Char) (key : Key32)
    (nonce : Key32) : Token :=
  Token.mk nonce payload assertion key

/-- `Paseto::<V4, Local>::try_decrypt`: authenticated decryption succeeds
exactly when the key and the implicit assertion match encryption time. -/
def pasetoTryDecrypt (t : Token) (key : Key32) (assertion : List Char) :
    Except CryptoError (List Char) :=
  if t.key = key ∧ t.assertion = assertion then Except.ok t.payload
  else Except.error CryptoError.authenticationFailure

/-- `Pie::wrap_local`. -/
def pieWrapLocal (cek : Key32) (wrappingKey : Key32) (nonce : Key32) : WrappedKey :=
  WrappedKey.mk cek wrappingKey nonce

/-- `Pie::unwrap_local`: succeeds exactly when the wrapping key matches. -/
def pieUnwrapLocal (w : WrappedKey) (wrappingKey : Key32) : Except CryptoError Key32 :=
  if w.kek = wrappingKey then Except.ok w.cek
  else Except.error CryptoError.unwrapFailure

/-- The `AtuinFooter` struct: wrapped content key plus the id of the key that
wrapped it, stored (as JSON text in the source) next to the ciphertext. -/
structure AtuinFooter where
  wpk : WrappedKey
  kid : KeyId
deriving DecidableEq

/-- `EncryptedData`: the PASETO token plus the wrapped content key footer. -/
structure EncryptedData where
  data : Token
  content_encryption_key : AtuinFooter
deriving DecidableEq

/-- `DecryptedData`: plain payload bytes. -/
structure DecryptedData where
  bytes : Bytes
deriving DecidableEq

namespace PASETO_V4

/-- `PASETO_V4::decrypt_cek`: parse the footer, compare the key id derived
from the provided key with the stored one, then unwrap the content key. -/
def decrypt_cek (wrapped_cek : AtuinFooter) (key : Key32) : Except CryptoError Key32 :=
  let wrapping_key := key
  let current_kid := encode_id wrapping_key
  if current_kid = wrapped_cek.kid then
    pieUnwrapLocal wrapped_cek.wpk wrapping_key
  else
    Except.error (CryptoError.kidMismatch current_kid wrapped_cek.kid)

/-- `PASETO_V4::encrypt_cek`: wrap the content key under the master key and
tag it with the master key id. -/
def encrypt_cek (cek : Key32) (key : Key32) (key_nonce : Key32) : AtuinFooter :=
  AtuinFooter.mk (pieWrapLocal cek key key_nonce) (encode_id key)

/-- `PASETO_V4::encrypt`.  The random content key and the two nonces the
source draws are taken as arguments. -/
def encrypt (data : DecryptedData) (ad : AdditonalData) (key : Key32)
    (random_key : Key32) (nonce : Key32) (key_nonce : Key32) : EncryptedData :=
  let assertions := assertionEnc ad
  let payload := b64Encode data.bytes
  let token := pasetoEncrypt payload assertions random_key nonce
  EncryptedData.mk token (encrypt_cek random_key key key_nonce)

/-- `PASETO_V4::decrypt`. -/
def decrypt (data : EncryptedData) (ad : AdditonalData) (key : Key32) :
    Except CryptoError DecryptedData := do
  let token := data.data
  let cek ← decrypt_cek data.content_encryption_key key
  let assertions := assertionEnc ad
  let payload ← pasetoTryDecrypt token cek assertions
  match b64Decode payload with
  | some d => Except.ok (DecryptedData.mk d)
  | none => Except.error CryptoError.base64Failure

/-- `PASETO_V4::re_encrypt`: unwrap the content key with the old master key
and re-wrap it under the new one; the token is untouched. -/
def re_encrypt (data : EncryptedData) (_ad : AdditonalData) (old_key : Key32)
    (new_key : Key32) (key_nonce : Key32) : Except CryptoError EncryptedData := do
  let cek ← decrypt_cek data.content_encryption_key old_key
  Except.ok (EncryptedData.mk data.data (encrypt_cek cek new_key key_nonce))

end PASETO_V4

/-! ## Helper lemmas about the encryption engine -/

theorem decrypt_encrypt_eq (p : Bytes) (hp : ValidBytes p) (ad : AdditonalData)
    (key cek nonce kn : Key32) :
    PASETO_V4.decrypt (PASETO_V4.encrypt (DecryptedData.mk p) ad key cek nonce kn) ad key
      = Except.ok (DecryptedData.mk p) := by
  simp [PASETO_V4.encrypt, PASETO_V4.decrypt, PASETO_V4.encrypt_cek, PASETO_V4.decrypt_cek,
    pieWrapLocal, pieUnwrapLocal, pasetoEncrypt, pasetoTryDecrypt, encode_id,
    bind, Except.bind, b64_round_trip p hp]

theorem decrypt_wrong_key_eq (p : Bytes) (ad : AdditonalData) (k1 k2 cek nonce kn : Key32)
    (h : k1 ≠ k2) :
    PASETO_V4.decrypt (PASETO_V4.encrypt (DecryptedData.mk p) ad k1 cek nonce kn) ad k2
      = Except.error (CryptoError.kidMismatch (encode_id k2) (encode_id k1)) := by
  have hne : k2 ≠ k1 := fun hEq => h hEq.symm
  simp [PASETO_V4.encrypt, PASETO_V4.decrypt, PASETO_V4.encrypt_cek, PASETO_V4.decrypt_cek,
    pieWrapLocal, pasetoEncrypt, encode_id, KeyId.mk.injEq, hne, bind, Except.bind]

theorem decrypt_wrong_ad_eq (p : Bytes) (ad ad2 : AdditonalData) (k cek nonce kn : Key32)
    (h : ad ≠ ad2) :
    PASETO_V4.decrypt (PASETO_V4.encrypt (DecryptedData.mk p) ad k cek nonce kn) ad2 k
      = Except.error CryptoError.authenticationFailure := by
  have henc : assertionEnc ad ≠ assertionEnc ad2 := fun hEq => h (assertionEnc_inj hEq)
  simp [PASETO_V4.encrypt, PASETO_V4.decrypt, PASETO_V4.encrypt_cek, PASETO_V4.decrypt_cek,
    pieWrapLocal, pieUnwrapLocal, pasetoEncrypt, pasetoTryDecrypt, encode_id, henc,
    bind, Except.bind]

/-! ## Concrete example values used by witnesses and counterexamples -/

/-- Example additional data (the tuple the source tests use). -/
def adEx : AdditonalData := AdditonalData.mk "foo" "v0" "kv" "1234"

/-- Example additional data differing from `adEx` in the id field. -/
def adEx2 : AdditonalData := AdditonalData.mk "foo1" "v0" "kv" "1234"

/-- Example master key. -/
def keyEx : Key32 := [85]

/-- A second, different master key. -/
def keyEx2 : Key32 := [66]

/-- Example random content-encryption key. -/
def cekEx : Key32 := [7]

/-- Example payload nonce. -/
def nonceEx : Key32 := [9]

/-- Example key-wrap nonce. -/
def keyNonceEx : Key32 := [11]

/-- A second key-wrap nonce. -/
def keyNonceEx2 : Key32 := [12]

/-! ## Claims C1 - C5 -/

/-- C1: encryption round-trip.  For every plaintext byte sequence p, every
additional-data tuple and every master key, decrypting the encryption of p
with the same additional data and key succeeds and returns p, with the
fresh content key and the nonces treated as arbitrary inputs. -/
theorem C1_round_trip (p : Bytes) (hp : ValidBytes p) (ad : AdditonalData)
    (key cek nonce key_nonce : Key32) :
    PASETO_V4.decrypt (PASETO_V4.encrypt (DecryptedData.mk p) ad key cek nonce key_nonce)
        ad key
      = Except.ok (DecryptedData.mk p) :=
  decrypt_encrypt_eq p hp ad key cek nonce key_nonce

theorem C1_witness :
    ValidBytes [1, 2, 3, 4] ∧
      PASETO_V4.decrypt
          (PASETO_V4.encrypt (DecryptedData.mk [1, 2, 3, 4]) adEx keyEx cekEx nonceEx
            keyNonceEx) adEx keyEx
        = Except.ok (DecryptedData.mk [1, 2, 3, 4]) :=
  ⟨by decide, C1_round_trip [1, 2, 3, 4] (by decide) adEx keyEx cekEx nonceEx keyNonceEx⟩

/-- C2: key rotation.  Re-encrypting an encrypted blob from key k1 to key k2
succeeds, leaves the ciphertext (the `data` token) unchanged, and the result
decrypts under k2 back to the original plaintext. -/
theorem C2_rotation (p : Bytes) (hp : ValidBytes p) (ad : AdditonalData)
    (k1 k2 cek nonce kn kn2 : Key32) :
    (PASETO_V4.re_encrypt (PASETO_V4.encrypt (DecryptedData.mk p) ad k1 cek nonce kn)
          ad k1 k2 kn2).map EncryptedData.data
      = Except.ok (PASETO_V4.encrypt (DecryptedData.mk p) ad k1 cek nonce kn).data
    ∧ ((PASETO_V4.re_encrypt (PASETO_V4.encrypt (DecryptedData.mk p) ad k1 cek nonce kn)
          ad k1 k2 kn2).bind fun e => PASETO_V4.decrypt e ad k2)
      = Except.ok (DecryptedData.mk p) := by
  constructor
  · simp [PASETO_V4.re_encrypt, PASETO_V4.encrypt, PASETO_V4.encrypt_cek,
      PASETO_V4.decrypt_cek, pieWrapLocal, pieUnwrapLocal, pasetoEncrypt, encode_id,
      bind, Except.bind, Except.map]
  · simp [PASETO_V4.re_encrypt, PASETO_V4.encrypt, PASETO_V4.decrypt, PASETO_V4.encrypt_cek,
      PASETO_V4.decrypt_cek, pieWrapLocal, pieUnwrapLocal, pasetoEncrypt, pasetoTryDecrypt,
      encode_id, bind, Except.bind, b64_round_trip p hp]

theorem C2_witness :
    ValidBytes [1, 2, 3, 4] ∧
      ((PASETO_V4.re_encrypt
            (PASETO_V4.encrypt (DecryptedData.mk [1, 2, 3, 4]) adEx keyEx cekEx nonceEx
              keyNonceEx) adEx keyEx keyEx2 keyNonceEx2).map EncryptedData.data
        = Except.ok
            (PASETO_V4.encrypt (DecryptedData.mk [1, 2, 3, 4]) adEx keyEx cekEx nonceEx
              keyNonceEx).data
      ∧ ((PASETO_V4.re_encrypt
            (PASETO_V4.encrypt (DecryptedData.mk [1, 2, 3, 4]) adEx keyEx cekEx nonceEx
              keyNonceEx) adEx keyEx keyEx2 keyNonceEx2).bind
            fun e => PASETO_V4.decrypt e adEx keyEx2)
        = Except.ok (DecryptedData.mk [1, 2, 3, 4])) :=
  ⟨by decide, C2_rotation [1, 2, 3, 4] (by decide) adEx keyEx keyEx2 cekEx nonceEx
    keyNonceEx keyNonceEx2⟩

/-- C3: identity binding.  Encrypting under additional data ad and decrypting
under any different additional data fails (with the coarse authentication
failure), even though the key is correct. -/
theorem C3_identity_binding (p : Bytes) (ad ad2 : AdditonalData) (k cek nonce kn : Key32)
    (h : ad ≠ ad2) :
    PASETO_V4.decrypt (PASETO_V4.encrypt (DecryptedData.mk p) ad k cek nonce kn) ad2 k
      = Except.error CryptoError.authenticationFailure :=
  decrypt_wrong_ad_eq p ad ad2 k cek nonce kn h

theorem C3_witness :
    adEx ≠ adEx2 ∧
      PASETO_V4.decrypt
          (PASETO_V4.encrypt (DecryptedData.mk [1, 2, 3, 4]) adEx keyEx cekEx nonceEx
            keyNonceEx) adEx2 keyEx
        = Except.error CryptoError.authenticationFailure :=
  ⟨by decide, C3_identity_binding [1, 2, 3, 4] adEx adEx2 keyEx cekEx nonceEx keyNonceEx
    (by decide)⟩

/-- C4 counterexample: decrypt-path failures are not a single
indistinguishable kind.  At concrete inputs, decrypting with a wrong master
key yields the key-mismatch error whose content carries both key ids (the
`ensure!` message interpolates them), while decrypting with a tampered
identity tuple yields the authentication failure; the two error contents
differ, so a caller can distinguish the causes. -/
theorem C4_counterexample :
    PASETO_V4.decrypt
        (PASETO_V4.encrypt (DecryptedData.mk [1, 2, 3, 4]) adEx keyEx cekEx nonceEx
          keyNonceEx) adEx keyEx2
      = Except.error (CryptoError.kidMismatch (encode_id keyEx2) (encode_id keyEx))
    ∧ PASETO_V4.decrypt
        (PASETO_V4.encrypt (DecryptedData.mk [1, 2, 3, 4]) adEx keyEx cekEx nonceEx
          keyNonceEx) adEx2 keyEx
      = Except.error CryptoError.authenticationFailure
    ∧ CryptoError.kidMismatch (encode_id keyEx2) (encode_id keyEx)
      ≠ CryptoError.authenticationFailure :=
  ⟨by decide, by decide, by decide⟩

/-- C4 amended: every decrypt-path failure is surfaced through the single
error channel of the Result, but the error content is cause-specific: a
wrong master key produces a key-mismatch error that names the two key ids,
while a wrong identity binding produces the generic authentication failure,
and the two contents never coincide - so callers can distinguish the causes
from the error content. -/
theorem C4_amended (p : Bytes) (ad ad2 : AdditonalData) (k1 k2 cek nonce kn : Key32)
    (hk : k1 ≠ k2) (had : ad ≠ ad2) :
    PASETO_V4.decrypt (PASETO_V4.encrypt (DecryptedData.mk p) ad k1 cek nonce kn) ad k2
      = Except.error (CryptoError.kidMismatch (encode_id k2) (encode_id k1))
    ∧ PASETO_V4.decrypt (PASETO_V4.encrypt (DecryptedData.mk p) ad k1 cek nonce kn) ad2 k1
      = Except.error CryptoError.authenticationFailure
    ∧ CryptoError.kidMismatch (encode_id k2) (encode_id k1)
      ≠ CryptoError.authenticationFailure :=
  ⟨decrypt_wrong_key_eq p ad k1 k2 cek nonce kn hk,
    decrypt_wrong_ad_eq p ad ad2 k1 cek nonce kn had,
    fun hEq => CryptoError.noConfusion hEq⟩

theorem C4_amended_witness :
    keyEx ≠ keyEx2 ∧ adEx ≠ adEx2 ∧
      (PASETO_V4.decrypt
          (PASETO_V4.encrypt (DecryptedData.mk [1, 2, 3, 4]) adEx keyEx cekEx nonceEx
            keyNonceEx) adEx keyEx2
        = Except.error (CryptoError.kidMismatch (encode_id keyEx2) (encode_id keyEx))
      ∧ PASETO_V4.decrypt
          (PASETO_V4.encrypt (DecryptedData.mk [1, 2, 3, 4]) adEx keyEx cekEx nonceEx
            keyNonceEx) adEx2 keyEx
        = Except.error CryptoError.authenticationFailure
      ∧ CryptoError.kidMismatch (encode_id keyEx2) (encode_id keyEx)
        ≠ CryptoError.authenticationFailure) :=
  ⟨by decide, by decide,
    C4_amended [1, 2, 3, 4] adEx adEx2 keyEx keyEx2 cekEx nonceEx keyNonceEx (by decide)
      (by decide)⟩

/-- C5: key isolation with fast-fail.  Decrypting with a different master key
than the one used at encryption fails, and the failure is precisely the
key-id comparison error of `decrypt_cek` (raised before any attempt to
unwrap the content key): the key id recomputed from the provided key versus
the key id stored in the footer. -/
theorem C5_key_isolation (p : Bytes) (ad : AdditonalData) (k1 k2 cek nonce kn : Key32)
    (h : k1 ≠ k2) :
    PASETO_V4.decrypt (PASETO_V4.encrypt (DecryptedData.mk p) ad k1 cek nonce kn) ad k2
      = Except.error (CryptoError.kidMismatch (encode_id k2) (encode_id k1)) :=
  decrypt_wrong_key_eq p ad k1 k2 cek nonce kn h

theorem C5_witness :
    keyEx ≠ keyEx2 ∧
      PASETO_V4.decrypt
          (PASETO_V4.encrypt (DecryptedData.mk [1, 2, 3, 4]) adEx keyEx cekEx nonceEx
            keyNonceEx) adEx keyEx2
        = Except.error (CryptoError.kidMismatch (encode_id keyEx2) (encode_id keyEx)) :=
  ⟨by decide, C5_key_isolation [1, 2, 3, 4] adEx keyEx keyEx2 cekEx nonceEx keyNonceEx
    (by decide)⟩

/-! ## Record and chain model / store contract

The `Record` entity and the `Store` contract live in atuin_common /
atuin-client record modules, outside src/; they are modelled from the
design document: a record carries the identity quadruple, an optional
parent pointer and opaque payload bytes; the store keeps all pushed
records (newest first), one independent chain per (host, tag), with
`len` / `last` / `get(id)` / `push` as specified in spec section 4.1. -/

/-- Modelled from the spec: the Record entity (spec section 3).  The fresh id
and the timestamp are generated at creation time and are passed explicitly
here. -/
structure Record where
  id : String
  host : String
  parent : Option String
  tag : String
  version : String
  timestamp : Nat
  data : Bytes
deriving DecidableEq

/-- Modelled from the spec: the store holding every pushed record, newest
first. -/
structure Store where
  records : List Record
deriving DecidableEq

/-- Store-contract errors (spec section 7). -/
inductive StoreError where
  | notFound : StoreError
deriving DecidableEq

/-- The (host, tag) chain inside the store, tail (newest) first. -/
def chainOf (s : Store) (host tag : String) : List Record :=
  s.records.filter fun r => r.host == host && r.tag == tag

/-- Modelled from the spec: `Store::len`. -/
def storeLen (s : Store) (host tag : String) : Nat :=
  (chainOf s host tag).length

/-- Modelled from the spec: `Store::last`, failing with NotFound on an empty
chain. -/
def storeLast (s : Store) (host tag : String) : Except StoreError Record :=
  match chainOf s host tag with
  | [] => Except.error StoreError.notFound
  | r :: _ => Except.ok r

/-- Modelled from the spec: `Store::get` by record id, failing with NotFound
for an unknown id. -/
def storeGet (s : Store) (id : String) : Except StoreError Record :=
  match s.records.find? (fun r => r.id == id) with
  | some r => Except.ok r
  | none => Except.error StoreError.notFound

/-- Modelled from the spec: `Store::push` appends the record as the new tail
of its (host, tag) chain. -/
def storePush (s : Store) (r : Record) : Store :=
  Store.mk (r :: s.records)

/-! ## Key-value record service (`KvStore`)

Translated from src/atuin-client/src/kv.rs.  `host_id` is fetched from
`Settings::host_id()` in the source and is taken as an explicit argument
here (spec section 9 requires exactly this abstraction). -/

/-- `KV_VERSION`. -/
def kvVersion : String := "v0"

/-- `KV_TAG`. -/
def kvTag : String := "kv"

/-- The `KvRecord` payload. -/
structure KvRecord where
  key : String
  value : String
deriving DecidableEq

/-- Modelled from the spec: `rmp_serde::to_vec` of a `KvRecord` - a compact
binary serialization of the two strings; modelled as a length-prefixed
encoding of the characters of both fields, with an exact decoder below. -/
def kvSerialize (r : KvRecord) : Bytes :=
  146 :: (r.key.data.length :: r.key.data.map Char.toNat) ++
    (r.value.data.length :: r.value.data.map Char.toNat)

/-- Modelled from the spec: `rmp_serde::from_slice` for a `KvRecord`;
inverse of `kvSerialize`. -/
def kvDeserialize (b : Bytes) : Option KvRecord :=
  match b with
  | 146 :: n :: rest =>
    if n ≤ rest.length then
      match rest.drop n with
      | m :: rest2 =>
        if m = rest2.length then
          some (KvRecord.mk (String.mk ((rest.take n).map Char.ofNat))
            (String.mk (rest2.map Char.ofNat)))
        else none
      | [] => none
    else none
  | _ => none

theorem kvDeserialize_kvSerialize (r : KvRecord) : kvDeserialize (kvSerialize r) = some r := by
  obtain ⟨k, v⟩ := r
  simp only [kvSerialize, kvDeserialize, List.cons_append, List.length_cons]
  rw [if_pos (by simp), List.take_left' (by simp), List.drop_left' (by simp)]
  simp [List.map_map, Function.comp_def, Char.ofNat_toNat]

/-- Errors `KvStore::get` / `KvStore::set` can surface: store failures,
payload deserialization failures, and (model-only) fuel exhaustion for a
chain whose parent pointers do not terminate, where the source loop would
not terminate either. -/
inductive KvError where
  | store : StoreError → KvError
  | deser : KvError
  | fuel : KvError
deriving DecidableEq

/-- The while-let loop of `KvStore::get`: inspect the current record, then
follow its parent pointer. -/
def kvGetLoop (s : Store) (key : String) : Nat → Record → Except KvError (Option KvRecord)
  | 0, _ => Except.error KvError.fuel
  | fuelLeft + 1, record =>
    match kvDeserialize record.data with
    | none => Except.error KvError.deser
    | some kv =>
      if kv.key = key then Except.ok (some kv)
      else
        match record.parent with
        | none => Except.ok none
        | some parent =>
          match storeGet s parent with
          | Except.error e => Except.error (KvError.store e)
          | Except.ok r => kvGetLoop s key fuelLeft r

/-- `KvStore::get`: start at the chain tail and walk backward via parent
pointers until a record decodes to the requested key or the chain is
exhausted.  Note the first `store.last` call: on an empty chain its
NotFound error propagates. -/
def kvGet (s : Store) (host_id key : String) : Except KvError (Option KvRecord) :=
  match storeLast s host_id kvTag with
  | Except.error e => Except.error (KvError.store e)
  | Except.ok record => kvGetLoop s key (s.records.length + 1) record

/-- `KvStore::set`: serialize the payload, read the chain length, take the
current tail id as parent when the chain is non-empty, build the record and
push it.  The source pushes the record with its serialized payload as built
- no encryption step is applied to it. -/
def kvSet (s : Store) (host_id : String) (newId : String) (ts : Nat)
    (key value : String) : Except KvError Store :=
  let record := KvRecord.mk key value
  let bytes := kvSerialize record
  let len := storeLen s host_id kvTag
  match
    (if len > 0 then
      match storeLast s host_id kvTag with
      | Except.error e => Except.error (KvError.store e)
      | Except.ok r => Except.ok (some r.id)
    else Except.ok none : Except KvError (Option String)) with
  | Except.error e => Except.error e
  | Except.ok parent =>
    Except.ok (storePush s (Record.mk newId host_id parent kvTag kvVersion ts bytes))

/-- Reference resolution policy (spec section 3): the most recent record,
walking from the chain tail toward the head, whose decoded key matches. -/
def resolveKv (chain : List Record) (key : String) : Option KvRecord :=
  match chain with
  | [] => none
  | r :: rest =>
    match kvDeserialize r.data with
    | none => none
    | some kv => if kv.key = key then some kv else resolveKv rest key

/-- Parent pointers of a tail-first chain list link each record to the next,
and the head of the chain (the oldest record) has no parent. -/
def linkedChain : List Record → Bool
  | [] => true
  | [r] => r.parent == none
  | r :: r2 :: rest => r.parent == some r2.id && linkedChain (r2 :: rest)

/-- Every record of the list has a decodable payload. -/
def allDecodable (c : List Record) : Bool :=
  c.all fun r => (kvDeserialize r.data).isSome

/-! ## Chain traversal lemmas -/

theorem find_id_of_nodup (l : List Record) : (l.map Record.id).Nodup → ∀ r ∈ l,
    l.find? (fun x => x.id == r.id) = some r := by
  induction l with
  | nil =>
    intro _ r hr
    cases hr
  | cons x t ih =>
    intro hn r hr
    simp only [List.map_cons, List.nodup_cons, List.mem_map] at hn
    rcases List.mem_cons.mp hr with hEq | hMem
    · subst hEq
      rw [List.find?_cons_of_pos _ (by simp)]
    · have hneq : (x.id == r.id) = false := by
        simp only [beq_eq_false_iff_ne, ne_eq]
        intro hEq
        exact hn.1 ⟨r, hMem, hEq.symm⟩
      rw [List.find?_cons_of_neg _ (by simp [hneq])]
      exact ih hn.2 r hMem

theorem kvGetLoop_resolve (s : Store) (key : String) :
    ∀ (c : List Record), linkedChain c = true → allDecodable c = true →
      (∀ x ∈ c, x ∈ s.records) → (s.records.map Record.id).Nodup →
      ∀ r rest, c = r :: rest →
      ∀ fuelLeft, c.length ≤ fuelLeft →
        kvGetLoop s key fuelLeft r = Except.ok (resolveKv c key) := by
  intro c
  induction c with
  | nil =>
    intro _ _ _ _ r rest h
    cases h
  | cons hd tl ih =>
    intro hlink hdec hsub hnodup r rest hEq fuelLeft hfuel
    injection hEq with h1 h2
    subst h1
    subst h2
    obtain ⟨f, rfl⟩ : ∃ f, fuelLeft = f + 1 := by
      cases fuelLeft with
      | zero => simp at hfuel
      | succ f => exact ⟨f, rfl⟩
    simp only [allDecodable, List.all_cons, Bool.and_eq_true, Option.isSome_iff_exists] at hdec
    obtain ⟨⟨kv, hkv⟩, hdec2⟩ := hdec
    rw [kvGetLoop, hkv]
    simp only [resolveKv, hkv]
    by_cases hkey : kv.key = key
    · rw [if_pos hkey, if_pos hkey]
    · rw [if_neg hkey, if_neg hkey]
      cases tl with
      | nil =>
        have hp : hd.parent = none := by
          simp only [linkedChain] at hlink
          exact beq_iff_eq.mp hlink
        rw [hp]
        rfl
      | cons r2 tl2 =>
        simp only [linkedChain, Bool.and_eq_true, beq_iff_eq] at hlink
        have hget : storeGet s r2.id = Except.ok r2 := by
          unfold storeGet
          rw [find_id_of_nodup s.records hnodup r2 (hsub r2 (by simp))]
        have hres := ih hlink.2 (by
            simp only [allDecodable]
            exact hdec2)
          (fun x hx => hsub x (List.mem_cons_of_mem hd hx)) hnodup r2 tl2 rfl f
          (by simpa using Nat.le_of_succ_le_succ hfuel)
        rw [hlink.1]
        simpa [hget] using hres

/-! ## Claims C6 and C7 -/

/-- C6 counterexample: on the empty chain, `KvStore::get` does not return
None; the NotFound error of the initial `store.last` call propagates. -/
theorem C6_counterexample :
    kvGet (Store.mk []) "host1" "c" = Except.error (KvError.store StoreError.notFound)
    ∧ kvGet (Store.mk []) "host1" "c" ≠ Except.ok none :=
  ⟨by decide, by decide⟩

/-- C6 amended: for a well-formed non-empty (host, kv) chain whose payloads
decode, `KvStore::get` returns the most recent record (walking from the
chain tail toward the head) whose decoded key matches, and None when no
record matches; for the empty chain it fails with the store's NotFound
error instead of returning None. -/
theorem C6_amended (s : Store) (host_id key : String)
    (hnodup : (s.records.map Record.id).Nodup)
    (hlink : linkedChain (chainOf s host_id kvTag) = true)
    (hdec : allDecodable (chainOf s host_id kvTag) = true) :
    kvGet s host_id key =
      if chainOf s host_id kvTag = [] then
        Except.error (KvError.store StoreError.notFound)
      else Except.ok (resolveKv (chainOf s host_id kvTag) key) := by
  cases hc : chainOf s host_id kvTag with
  | nil =>
    rw [if_pos rfl]
    unfold kvGet storeLast
    rw [hc]
  | cons r rest =>
    rw [if_neg (by simp)]
    unfold kvGet storeLast
    rw [hc]
    have hfuel : (r :: rest).length ≤ s.records.length + 1 := by
      have := List.length_filter_le (fun x => x.host == host_id && x.tag == kvTag) s.records
      rw [show (s.records.filter fun x => x.host == host_id && x.tag == kvTag)
          = chainOf s host_id kvTag from rfl, hc] at this
      omega
    exact kvGetLoop_resolve s key (r :: rest) (hc ▸ hlink) (hc ▸ hdec)
      (fun x hx => List.mem_of_mem_filter (l := s.records) (by rw [← hc] at hx; exact hx))
      hnodup r rest rfl (s.records.length + 1) hfuel

/-- The example chain of the claim: ("a","1"), ("b","2"), ("a","3") appended
in order on host h1, newest record first. -/
def exampleKvStore : Store :=
  Store.mk
    [Record.mk "3" "h1" (some "2") kvTag kvVersion 3 (kvSerialize (KvRecord.mk "a" "3")),
     Record.mk "2" "h1" (some "1") kvTag kvVersion 2 (kvSerialize (KvRecord.mk "b" "2")),
     Record.mk "1" "h1" none kvTag kvVersion 1 (kvSerialize (KvRecord.mk "a" "1"))]

theorem C6_witness :
    (exampleKvStore.records.map Record.id).Nodup
    ∧ linkedChain (chainOf exampleKvStore "h1" kvTag) = true
    ∧ allDecodable (chainOf exampleKvStore "h1" kvTag) = true
    ∧ kvGet exampleKvStore "h1" "a" = Except.ok (some (KvRecord.mk "a" "3"))
    ∧ kvGet exampleKvStore "h1" "c" = Except.ok none :=
  ⟨by decide, by decide, by decide,
    (C6_amended exampleKvStore "h1" "a" (by decide) (by decide) (by decide)).trans (by decide),
    (C6_amended exampleKvStore "h1" "c" (by decide) (by decide) (by decide)).trans (by decide)⟩

/-- C7 counterexample: `KvStore::set` pushes the record with its serialized
plaintext payload - the pushed `data` equals the rmp serialization of the
key/value pair and decodes back to it without any key, so no encryption is
applied before the push. -/
theorem C7_counterexample :
    kvSet (Store.mk []) "host1" "id1" 0 "a" "1"
      = Except.ok (Store.mk [Record.mk "id1" "host1" none kvTag kvVersion 0
          (kvSerialize (KvRecord.mk "a" "1"))])
    ∧ kvDeserialize (kvSerialize (KvRecord.mk "a" "1")) = some (KvRecord.mk "a" "1") :=
  ⟨by decide, by decide⟩

/-- C7 amended: `KvStore::set` serializes the payload, sets the new record's
parent to the id of the current chain tail (None on an empty chain), and
pushes the record with the serialized plaintext payload (no encryption step
is applied in this version); the (host, kv) chain grows by exactly one
record and records of every other (host, tag) chain are unchanged. -/
theorem C7_amended (s : Store) (host_id newId : String) (ts : Nat) (key value : String) :
    kvSet s host_id newId ts key value
      = Except.ok (storePush s (Record.mk newId host_id
          ((chainOf s host_id kvTag).head?.map Record.id) kvTag kvVersion ts
          (kvSerialize (KvRecord.mk key value))))
    ∧ storeLen (storePush s (Record.mk newId host_id
          ((chainOf s host_id kvTag).head?.map Record.id) kvTag kvVersion ts
          (kvSerialize (KvRecord.mk key value)))) host_id kvTag
      = storeLen s host_id kvTag + 1
    ∧ (storePush s (Record.mk newId host_id
          ((chainOf s host_id kvTag).head?.map Record.id) kvTag kvVersion ts
          (kvSerialize (KvRecord.mk key value)))).records.filter
            (fun r => !(r.host == host_id && r.tag == kvTag))
      = s.records.filter fun r => !(r.host == host_id && r.tag == kvTag) := by
  refine ⟨?_, ?_, ?_⟩
  · unfold kvSet storeLen
    cases hc : chainOf s host_id kvTag with
    | nil =>
      simp [hc]
    | cons r rest =>
      simp only [hc, List.length_cons, List.head?_cons, Option.map_some]
      rw [if_pos (by omega)]
      unfold storeLast
      rw [hc]
      rfl
  · unfold storeLen storePush chainOf
    simp
  · unfold storePush
    simp

/-! ## Sync reconciliation (src/src/command/sync.rs)

`sync_download` and `sync_upload` are embedded with explicit fuel for their
while loops; fuel exhaustion is a distinguished model-only outcome marking
an execution in which the source loop has not yet exited.  The local
database and the relay client live outside src/ and are modelled from the
design document: the database stores history entries deduplicated by id
(`save_bulk` ignores already-known ids, `history_count` counts entries);
the relay is a pair of response functions indexed by call number (so every
sequence of relay responses is expressible) that also receive the
watermarks the source passes. -/

/-- A history entry as sync sees it: unique id, timestamp, opaque payload. -/
structure HistoryEntry where
  id : String
  timestamp : Int
  data : String
deriving DecidableEq

/-- Modelled from the spec: the local history database. -/
structure Db where
  entries : List HistoryEntry
deriving DecidableEq

/-- Modelled from the spec: `db.history_count()`. -/
def historyCount (db : Db) : Int := db.entries.length

/-- Modelled from the spec: `db.save_bulk(page)` - persist the page,
ignoring records whose id is already present. -/
def saveBulk (db : Db) (page : List HistoryEntry) : Db :=
  page.foldl
    (fun d e => if d.entries.any fun x => x.id == e.id then d else Db.mk (d.entries ++ [e]))
    db

/-- A relay/transport failure. -/
inductive TransportError where
  | transport : TransportError
deriving DecidableEq

/-- Externally visible sync outcomes: a propagated transport failure, or
(model-only) fuel exhaustion marking a non-terminated loop. -/
inductive SyncError where
  | transport : SyncError
  | fuelExhausted : SyncError
deriving DecidableEq

/-- Modelled from the spec: the relay client as seen by `sync_download`.
`get_history` receives the call index plus the `(last_sync, last_timestamp)`
watermark the source passes. -/
structure DlClient where
  count : Except TransportError Int
  get_history : Nat → Int → Int → Except TransportError (List HistoryEntry)

/-- The mutable state of the download loop: the database, `local_count`,
`last_timestamp`, and the number of fetches made so far. -/
structure DownloadState where
  db : Db
  localCount : Int
  lastTimestamp : Int
  callIdx : Nat
deriving DecidableEq

/-- Timestamp of `page.last()`, with an arbitrary default for the empty page
(the source only reads it from a non-empty page). -/
def pageLastTs (page : List HistoryEntry) : Int :=
  match page.getLast? with
  | some e => e.timestamp
  | none => 0

/-- One iteration of the `while remote_count > local_count` body of
`sync_download`: fetch a page, stop on an empty page, otherwise persist it,
refresh `local_count`, and advance the cursor to the page's last timestamp -
resetting it to the epoch when it equals the previous cursor value. -/
def downloadStep (client : DlClient) (lastSync : Int) (remoteCount : Int)
    (st : DownloadState) : Except SyncError (Option DownloadState) :=
  if remoteCount > st.localCount then
    match client.get_history st.callIdx lastSync st.lastTimestamp with
    | Except.error _ => Except.error SyncError.transport
    | Except.ok page =>
      if page.length = 0 then Except.ok none
      else
        let db2 := saveBulk st.db page
        let lc2 := historyCount db2
        let pageLast := pageLastTs page
        let ts2 := if pageLast = st.lastTimestamp then 0 else pageLast
        Except.ok (some (DownloadState.mk db2 lc2 ts2 (st.callIdx + 1)))
  else Except.ok none

/-- The download loop, with fuel; returns the state reached together with
the loop outcome (the Rust `db` keeps its mutations when the loop errors). -/
def downloadLoop (client : DlClient) (lastSync : Int) (remoteCount : Int) :
    Nat → DownloadState → DownloadState × Except SyncError Unit
  | 0, st => (st, Except.error SyncError.fuelExhausted)
  | f + 1, st =>
    match downloadStep client lastSync remoteCount st with
    | Except.error e => (st, Except.error e)
    | Except.ok none => (st, Except.ok ())
    | Except.ok (some st2) => downloadLoop client lastSync remoteCount f st2

/-- `sync_download`: read the remote count once, run the loop from the
initial local count with the cursor at the epoch, and on success return
(number downloaded, total local count). -/
def sync_download (client : DlClient) (lastSync : Int) (db : Db) (fuel : Nat) :
    Db × Except SyncError (Int × Int) :=
  match client.count with
  | Except.error _ => (db, Except.error SyncError.transport)
  | Except.ok remoteCount =>
    let initialLocal := historyCount db
    let r := downloadLoop client lastSync remoteCount fuel
      (DownloadState.mk db initialLocal 0 0)
    match r.2 with
    | Except.error e => (r.1.db, Except.error e)
    | Except.ok _ => (r.1.db, Except.ok (r.1.localCount - initialLocal, r.1.localCount))

theorem sync_download_eq (client : DlClient) (lastSync : Int) (db : Db) (fuel : Nat)
    (rc : Int) (hc : client.count = Except.ok rc) :
    sync_download client lastSync db fuel =
      (let r := downloadLoop client lastSync rc fuel
        (DownloadState.mk db (historyCount db) 0 0)
       match r.2 with
       | Except.error e => (r.1.db, Except.error e)
       | Except.ok _ =>
         (r.1.db, Except.ok (r.1.localCount - historyCount db, r.1.localCount))) := by
  unfold sync_download
  rw [hc]

/-! ## Claim C8 -/

/-- A database already holding the single record the bad relay keeps
serving. -/
def badDlDb : Db := Db.mk [HistoryEntry.mk "r1" 5 "x"]

/-- A relay reporting two remote records but forever serving one page with
the already-known record (timestamp 5). -/
def badDlClient : DlClient :=
  DlClient.mk (Except.ok 2) (fun _ _ _ => Except.ok [HistoryEntry.mk "r1" 5 "x"])

/-- The download never finishes: for every amount of fuel the loop is still
running. -/
def downloadDiverges (client : DlClient) (lastSync : Int) (db : Db) : Prop :=
  ∀ fuel, (sync_download client lastSync db fuel).2 = Except.error SyncError.fuelExhausted

theorem badDlClient_step0 (idx : Nat) :
    downloadStep badDlClient 0 2 (DownloadState.mk badDlDb 1 0 idx)
      = Except.ok (some (DownloadState.mk badDlDb 1 5 (idx + 1))) := rfl

theorem badDlClient_step5 (idx : Nat) :
    downloadStep badDlClient 0 2 (DownloadState.mk badDlDb 1 5 idx)
      = Except.ok (some (DownloadState.mk badDlDb 1 0 (idx + 1))) := rfl

theorem badDlClient_loop_diverges : ∀ fuel idx,
    (downloadLoop badDlClient 0 2 fuel (DownloadState.mk badDlDb 1 0 idx)).2
        = Except.error SyncError.fuelExhausted
    ∧ (downloadLoop badDlClient 0 2 fuel (DownloadState.mk badDlDb 1 5 idx)).2
        = Except.error SyncError.fuelExhausted := by
  intro fuel
  induction fuel with
  | zero =>
    intro idx
    exact ⟨rfl, rfl⟩
  | succ f ih =>
    intro idx
    constructor
    · simp only [downloadLoop, badDlClient_step0 idx]
      exact (ih (idx + 1)).2
    · simp only [downloadLoop, badDlClient_step5 idx]
      exact (ih (idx + 1)).1

/-- C8 counterexample: the epoch reset does not make the download loop
terminate for every sequence of relay responses.  With a remote count of 2,
a local database already holding record r1 (timestamp 5), and a relay that
answers every fetch with the page [r1], the loop runs forever: the state
cycles between cursor 5 and the epoch while the local count never grows. -/
theorem C8_counterexample : downloadDiverges badDlClient 0 badDlDb := by
  intro fuel
  have h := (badDlClient_loop_diverges fuel 0).1
  rw [sync_download_eq badDlClient 0 badDlDb fuel 2 rfl,
    show historyCount badDlDb = 1 from rfl]
  simp only [h]

/-- C8 amended: the loop runs only while remote_count exceeds local_count,
stops successfully on an empty page, and after persisting a page advances
the cursor to the page's last timestamp, resetting it to the epoch when that
value equals the previous cursor (all of which is the definition of
`downloadStep`); but the reset does not guarantee termination for every
sequence of relay responses - termination is guaranteed when every
persisted page strictly increases the local count, because the gap
remote_count - local_count then shrinks every iteration. -/
theorem C8_amended (client : DlClient) (lastSync remoteCount : Int) (fuel : Nat)
    (st : DownloadState)
    (hstep : ∀ s1 s2, downloadStep client lastSync remoteCount s1 = Except.ok (some s2) →
      s1.localCount + 1 ≤ s2.localCount)
    (hfuel : (remoteCount - st.localCount).toNat < fuel) :
    (downloadLoop client lastSync remoteCount fuel st).2 ≠ Except.error SyncError.fuelExhausted := by
  induction fuel generalizing st with
  | zero => omega
  | succ f ih =>
    rw [downloadLoop]
    cases hs : downloadStep client lastSync remoteCount st with
    | error e =>
      have : e ≠ SyncError.fuelExhausted := by
        unfold downloadStep at hs
        split at hs
        · split at hs
          · injection hs with h1
            rw [← h1]
            decide
          · split at hs
            · cases hs
            · cases hs
        · cases hs
      intro hcontra
      exact this (by injection hcontra)
    | ok o =>
      cases o with
      | none =>
        intro hcontra
        cases hcontra
      | some st2 =>
        have hlt := hstep st st2 hs
        have hguard : remoteCount > st.localCount := by
          unfold downloadStep at hs
          by_cases hg : remoteCount > st.localCount
          · exact hg
          · rw [if_neg hg] at hs
            cases hs
        exact ih st2 (by omega)

/-- A relay whose fetches always return the empty page. -/
def emptyDlClient : DlClient := DlClient.mk (Except.ok 0) (fun _ _ _ => Except.ok [])

theorem C8_witness :
    (downloadLoop emptyDlClient 0 1 2 (DownloadState.mk (Db.mk []) 0 0 0)).2
      ≠ Except.error SyncError.fuelExhausted := by
  refine C8_amended emptyDlClient 0 1 2 (DownloadState.mk (Db.mk []) 0 0 0) ?_ (by decide)
  intro s1 s2 h
  unfold downloadStep at h
  by_cases hg : (1 : Int) > s1.localCount
  · rw [if_pos hg] at h
    simp only [emptyDlClient] at h
    simp at h
  · rw [if_neg hg] at h
    cases h

/-! ## Claim C9 -/

/-- A relay that fails on the very first fetch. -/
def c9ClientA : DlClient :=
  DlClient.mk (Except.ok 5) (fun _ _ _ => Except.error TransportError.transport)

/-- A relay that serves one new record and then fails. -/
def c9ClientB : DlClient :=
  DlClient.mk (Except.ok 5)
    (fun idx _ _ =>
      if idx = 0 then Except.ok [HistoryEntry.mk "n1" 7 "y"]
      else Except.error TransportError.transport)

/-- C9 counterexample: two failing sync_download executions with different
transfer progress (zero records versus one record persisted before the
failure) return the very same error value to the caller - the error carries
no transfer count, so the caller cannot learn how many records were
transferred before the failure. -/
theorem C9_counterexample :
    (sync_download c9ClientA 0 (Db.mk []) 10).2 = Except.error SyncError.transport
    ∧ (sync_download c9ClientB 0 (Db.mk []) 10).2 = Except.error SyncError.transport
    ∧ historyCount (sync_download c9ClientB 0 (Db.mk []) 10).1
        ≠ historyCount (sync_download c9ClientA 0 (Db.mk []) 10).1 :=
  ⟨by decide, by decide, by decide⟩

theorem downloadStep_localCount (client : DlClient) (lastSync remoteCount : Int)
    (st st2 : DownloadState)
    (h : downloadStep client lastSync remoteCount st = Except.ok (some st2)) :
    st2.localCount = historyCount st2.db := by
  unfold downloadStep at h
  split at h
  · split at h
    · cases h
    · split at h
      · cases h
      · injection h with h1
        injection h1 with h2
        rw [← h2]
  · injection h with h1
    cases h1

theorem downloadLoop_localCount (client : DlClient) (lastSync remoteCount : Int) :
    ∀ (fuel : Nat) (st : DownloadState), st.localCount = historyCount st.db →
      (downloadLoop client lastSync remoteCount fuel st).1.localCount
        = historyCount (downloadLoop client lastSync remoteCount fuel st).1.db := by
  intro fuel
  induction fuel with
  | zero =>
    intro st hst
    exact hst
  | succ f ih =>
    intro st hst
    rw [downloadLoop]
    cases hs : downloadStep client lastSync remoteCount st with
    | error e => exact hst
    | ok o =>
      cases o with
      | none => exact hst
      | some st2 => exact ih st2 (downloadStep_localCount client lastSync remoteCount st st2 hs)

/-- C9 amended: sync_download reports transfer progress only on success - a
successful run returns (downloaded, total) where downloaded is exactly the
growth of the local count and total the final local count; a failing run
returns the bare underlying error (see the counterexample), which carries no
progress indication. -/
theorem C9_amended (client : DlClient) (lastSync : Int) (db : Db) (fuel : Nat) (n total : Int)
    (h : (sync_download client lastSync db fuel).2 = Except.ok (n, total)) :
    n = historyCount (sync_download client lastSync db fuel).1 - historyCount db
    ∧ total = historyCount (sync_download client lastSync db fuel).1 := by
  cases hc : client.count with
  | error e =>
    unfold sync_download at h
    rw [hc] at h
    simp at h
  | ok rc =>
    rw [sync_download_eq client lastSync db fuel rc hc] at h ⊢
    dsimp only at h ⊢
    have hinv := downloadLoop_localCount client lastSync rc fuel
      (DownloadState.mk db (historyCount db) 0 0) rfl
    revert h
    cases hr : (downloadLoop client lastSync rc fuel
        (DownloadState.mk db (historyCount db) 0 0)).2 with
    | error e =>
      intro h
      simp at h
    | ok u =>
      intro h
      dsimp only at h ⊢
      injection h with h1
      injection h1 with hn htotal
      rw [← hn, ← htotal, hinv]
      exact ⟨rfl, rfl⟩

theorem C9_witness :
    (0 : Int) = historyCount (sync_download emptyDlClient 0 (Db.mk []) 1).1
        - historyCount (Db.mk [])
    ∧ (0 : Int) = historyCount (sync_download emptyDlClient 0 (Db.mk []) 1).1 :=
  C9_amended emptyDlClient 0 (Db.mk []) 1 0 0 (by decide)

/-! ## Upload (`sync_upload`) and claim C10 -/

/-- Modelled from the spec: the legacy client-side encryption of one history
entry before upload, symbolically - the entry sealed under the key. -/
structure CipherBlob where
  entry : HistoryEntry
  key : Key32
deriving DecidableEq

/-- `AddHistoryRequest`: id, timestamp and the encrypted, serialized entry. -/
structure AddHistoryRequest where
  id : String
  timestamp : Int
  data : CipherBlob
deriving DecidableEq

/-- Modelled from the spec: `encrypt(settings, entry, key)`. -/
def encryptHistory (e : HistoryEntry) (key : Key32) : CipherBlob :=
  CipherBlob.mk e key

/-- Modelled from the spec: the relay client as seen by `sync_upload`:
`count` responses by call index and the outcome of each `post_history`. -/
structure UpClient where
  count : Nat → Except TransportError Int
  postResult : Nat → Except TransportError Unit

/-- The state `sync_upload` can touch: the local database (read only, as the
claim states) and the relay's stream of posted requests. -/
structure World where
  db : Db
  posted : List AddHistoryRequest
deriving DecidableEq

/-- Modelled from the spec: `db.before(cursor, 100)` - a bounded batch of
local records with timestamps before the cursor. -/
def dbBefore (db : Db) (cursor : Int) (n : Nat) : List HistoryEntry :=
  (db.entries.filter fun e => decide (e.timestamp < cursor)).take n

/-- Timestamp of `buffer.last().unwrap()` (the buffer is non-empty at the
use site). -/
def bufferLastTs (buffer : List AddHistoryRequest) (dflt : Int) : Int :=
  match buffer.getLast? with
  | some r => r.timestamp
  | none => dflt

/-- The `while local_count > remote_count` loop of `sync_upload`: select a
batch before the cursor, stop when it is empty, encrypt and serialize each
entry, post the batch, advance the cursor to the batch's last timestamp and
refresh the remote count.  `local_count` is never refreshed, as in the
source. -/
def uploadLoop (client : UpClient) (key : Key32) :
    Nat → World → Int → Int → Int → Nat → World × Except SyncError Unit
  | 0, w, _, _, _, _ => (w, Except.error SyncError.fuelExhausted)
  | f + 1, w, localCount, remoteCount, cursor, callIdx =>
    if localCount > remoteCount then
      match dbBefore w.db cursor 100 with
      | [] => (w, Except.ok ())
      | e :: es =>
        let buffer := (e :: es).map fun i =>
          AddHistoryRequest.mk i.id i.timestamp (encryptHistory i key)
        match client.postResult callIdx with
        | Except.error _ => (w, Except.error SyncError.transport)
        | Except.ok _ =>
          let w2 := World.mk w.db (w.posted ++ buffer)
          let cursor2 := bufferLastTs buffer cursor
          match client.count (callIdx + 1) with
          | Except.error _ => (w2, Except.error SyncError.transport)
          | Except.ok rc => uploadLoop client key f w2 localCount rc cursor2 (callIdx + 2)
    else (w, Except.ok ())

/-- `sync_upload`: read the remote count and the local count once, then run
the loop with the cursor starting at now. -/
def sync_upload (client : UpClient) (key : Key32) (now : Int) (w : World) (fuel : Nat) :
    World × Except SyncError Unit :=
  match client.count 0 with
  | Except.error _ => (w, Except.error SyncError.transport)
  | Except.ok remoteCount =>
    let localCount := historyCount w.db
    uploadLoop client key fuel w localCount remoteCount now 1

theorem uploadLoop_db (client : UpClient) (key : Key32) :
    ∀ (fuel : Nat) (w : World) (localCount remoteCount cursor : Int) (callIdx : Nat),
      (uploadLoop client key fuel w localCount remoteCount cursor callIdx).1.db = w.db := by
  intro fuel
  induction fuel with
  | zero =>
    intro w localCount remoteCount cursor callIdx
    rfl
  | succ f ih =>
    intro w localCount remoteCount cursor callIdx
    rw [uploadLoop]
    by_cases hg : localCount > remoteCount
    · rw [if_pos hg]
      cases hb : dbBefore w.db cursor 100 with
      | nil => rfl
      | cons e es =>
        cases client.postResult callIdx with
        | error e2 => rfl
        | ok u =>
          cases client.count (callIdx + 1) with
          | error e2 => rfl
          | ok rc =>
            exact ih (World.mk w.db _) localCount rc _ (callIdx + 2)
    · rw [if_neg hg]

/-- C10: sync_upload never modifies the local database - whatever the relay
responses, the fuel, and whether the run succeeds or fails, the database
after the call is the database before it; only the posted stream changes. -/
theorem C10_upload_reads_only (client : UpClient) (key : Key32) (now : Int) (w : World)
    (fuel : Nat) :
    (sync_upload client key now w fuel).1.db = w.db := by
  unfold sync_upload
  cases client.count 0 with
  | error e => rfl
  | ok rc => exact uploadLoop_db client key fuel w (historyCount w.db) rc now 1

end AtuinSpec
